import Mathlib

/-!
Shallow embedding of the two scripts of the repository `fujita1984/App`:
`src/Scripts/createcsv.py` (config loader + `export_hsk_words_to_csv`) and
`src/Scripts/import_csv.py` (config loader + `import_csv_to_db`).

The database table `hsk_words` is modelled as a list of rows together with the
table's auto-increment counter.  The MySQL connection is modelled with the
transactional semantics of MySQL/InnoDB: DML statements executed through a
cursor act on a pending (uncommitted) state, `connection.commit()` makes the
pending state durable, and `connection.rollback()` — or closing the connection
without committing — discards the pending DML changes.  DDL statements such as
`ALTER TABLE` cause an implicit commit: they first commit the transaction in
progress and are themselves non-transactional, and auto-increment counter
updates are never undone by a rollback.  CSV files are modelled
structurally (a header row and a list of records, each a list of string
fields), since the `csv` library's quoting layer is external to the repository
and round-trips field values verbatim.  The JSON config file is modelled by
the extracted value of `ConnectionStrings.DefaultConnection` (`none` when the
file is absent), since the `json` library is likewise external.  Python string
and integer coercion semantics (`str.split`, `str.strip`, `str.lower`,
`int(...)`, `str(...)`) are embedded below on `List Char`.
-/

/-- ASCII whitespace, as stripped by Python's `int(str)` coercion and
`str.strip()` (the scripts only ever strip ASCII configuration text). -/
def isPySpace (c : Char) : Bool :=
  c = ' ' || c = '\t' || c = '\n' || c = '\r' || c = '\x0b' || c = '\x0c'

/-- Strip leading and trailing whitespace, Python's `str.strip()`. -/
def pyStrip (l : List Char) : List Char :=
  ((l.dropWhile isPySpace).reverse.dropWhile isPySpace).reverse

/-- A decimal digit character. -/
def isDigitChar (c : Char) : Bool :=
  48 ≤ c.toNat && c.toNat ≤ 57

/-- The numeric value of a digit character. -/
def charVal (c : Char) : Nat := c.toNat - 48

/-- The digit character for a value below ten. -/
def digitChar : Nat → Char
  | 0 => '0' | 1 => '1' | 2 => '2' | 3 => '3' | 4 => '4'
  | 5 => '5' | 6 => '6' | 7 => '7' | 8 => '8' | _ => '9'

/-- The digit body accepted by Python's `int`: nonempty, made of digits with
single underscores allowed only between two digits. -/
def pyDigits : List Char → Bool
  | [] => false
  | [c] => isDigitChar c
  | c :: d :: rest =>
    if d = '_' then isDigitChar c && pyDigits rest
    else isDigitChar c && pyDigits (d :: rest)

/-- Value of a digit body read most-significant-first, skipping underscores. -/
def digitsVal (l : List Char) : Nat :=
  l.foldl (fun a c => if c = '_' then a else a * 10 + charVal c) 0

/-- Python `int(s)` after whitespace stripping: one optional sign, then a
digit body. -/
def pyIntCore (t : List Char) : Option Int :=
  if t.head? = some '+' then
    (if pyDigits t.tail then some ((digitsVal t.tail : Nat) : Int) else none)
  else if t.head? = some '-' then
    (if pyDigits t.tail then some (-((digitsVal t.tail : Nat) : Int)) else none)
  else if pyDigits t then some ((digitsVal t : Nat) : Int) else none

/-- Python `int(s)` on a string: strips whitespace, allows one optional sign,
then requires a digit body; returns `none` on any other shape (`ValueError`). -/
def pyInt (s : String) : Option Int := pyIntCore (pyStrip s.toList)

/-- Decimal digits of `n`, least significant first. -/
def natDigitsRev (n : Nat) : List Char :=
  if n < 10 then [digitChar n]
  else digitChar (n % 10) :: natDigitsRev (n / 10)
termination_by n
decreasing_by exact Nat.div_lt_self (by omega) (by omega)

/-- Decimal representation of a natural number, Python `str(n)` for `n ≥ 0`. -/
def natRepr (n : Nat) : List Char := (natDigitsRev n).reverse

/-- Python `str(i)` for an integer value, as written by `csv.writer`. -/
def pyStrInt (i : Int) : String :=
  if i < 0 then String.mk ('-' :: natRepr i.natAbs) else String.mk (natRepr i.toNat)

/-- Python `str(n)` for a (count) natural number. -/
def pyStrNat (n : Nat) : String := String.mk (natRepr n)

/-- Value of a digit list read least-significant-first. -/
def valRev : List Char → Nat
  | [] => 0
  | c :: r => charVal c + 10 * valRev r

theorem charVal_digitChar {k : Nat} (h : k < 10) : charVal (digitChar k) = k := by
  interval_cases k <;> decide

theorem isDigitChar_digitChar {k : Nat} (h : k < 10) : isDigitChar (digitChar k) = true := by
  interval_cases k <;> decide

theorem natDigitsRev_ne_nil (n : Nat) : natDigitsRev n ≠ [] := by
  unfold natDigitsRev
  split <;> simp

theorem natDigitsRev_all_digit (n : Nat) : ∀ c ∈ natDigitsRev n, isDigitChar c = true := by
  induction n using Nat.strong_induction_on with
  | _ n ih =>
    unfold natDigitsRev
    split
    · next h => simpa using isDigitChar_digitChar h
    · next h =>
      intro c hc
      rcases List.mem_cons.mp hc with hc | hc
      · subst hc; exact isDigitChar_digitChar (Nat.mod_lt _ (by omega))
      · exact ih (n / 10) (Nat.div_lt_self (by omega) (by omega)) c hc

theorem valRev_natDigitsRev (n : Nat) : valRev (natDigitsRev n) = n := by
  induction n using Nat.strong_induction_on with
  | _ n ih =>
    unfold natDigitsRev
    split
    · next h => simp [valRev, charVal_digitChar h]
    · next h =>
      have := ih (n / 10) (Nat.div_lt_self (by omega) (by omega))
      simp [valRev, this, charVal_digitChar (Nat.mod_lt n (by omega))]
      omega

theorem digitsVal_append_last (l : List Char) (c : Char) (hc : c ≠ '_') :
    digitsVal (l ++ [c]) = digitsVal l * 10 + charVal c := by
  simp [digitsVal, List.foldl_append, hc]

theorem digitsVal_reverse (l : List Char) (h : ∀ c ∈ l, c ≠ '_') :
    digitsVal l.reverse = valRev l := by
  induction l with
  | nil => simp [digitsVal, valRev]
  | cons c r ih =>
    have hc : c ≠ '_' := h c (by simp)
    rw [List.reverse_cons, digitsVal_append_last _ _ hc,
      ih (fun x hx => h x (by simp [hx]))]
    simp [valRev]
    omega

theorem underscore_not_digit : isDigitChar '_' = false := by decide

theorem digitsVal_natRepr (n : Nat) : digitsVal (natRepr n) = n := by
  rw [natRepr, digitsVal_reverse]
  · exact valRev_natDigitsRev n
  · intro c hc
    have hd := natDigitsRev_all_digit n c hc
    intro he
    rw [he, underscore_not_digit] at hd
    exact Bool.false_ne_true hd

theorem pyDigits_of_all_digit (l : List Char) (hne : l ≠ [])
    (h : ∀ c ∈ l, isDigitChar c = true) : pyDigits l = true := by
  induction l using pyDigits.induct with
  | case1 => exact absurd rfl hne
  | case2 c => simpa [pyDigits] using h c (by simp)
  | case3 c rest ih =>
    have h2 := h '_' (by simp)
    rw [underscore_not_digit] at h2
    exact absurd h2 (by simp)
  | case4 c d rest hd ih =>
    show (if d = '_' then isDigitChar c && pyDigits rest
      else isDigitChar c && pyDigits (d :: rest)) = true
    rw [if_neg hd]
    simp only [Bool.and_eq_true]
    exact ⟨h c (by simp), ih (by simp) (fun x hx => h x (by
      rcases List.mem_cons.mp hx with hx | hx
      · simp [hx]
      · simp [hx]))⟩

theorem pyDigits_natRepr (n : Nat) : pyDigits (natRepr n) = true := by
  apply pyDigits_of_all_digit
  · simp [natRepr, natDigitsRev_ne_nil n]
  · intro c hc
    exact natDigitsRev_all_digit n c (by simpa [natRepr] using hc)

theorem natRepr_all_digit (n : Nat) : ∀ c ∈ natRepr n, isDigitChar c = true := by
  intro c hc
  exact natDigitsRev_all_digit n c (by simpa [natRepr] using hc)

theorem dropWhile_eq_self_of_not (p : Char → Bool) (l : List Char)
    (h : ∀ c ∈ l, p c = false) : l.dropWhile p = l := by
  cases l with
  | nil => rfl
  | cons c r =>
    rw [List.dropWhile_cons]
    simp [h c (by simp)]

theorem pyStrip_eq_self (l : List Char) (h : ∀ c ∈ l, isPySpace c = false) :
    pyStrip l = l := by
  unfold pyStrip
  rw [dropWhile_eq_self_of_not _ _ h,
    dropWhile_eq_self_of_not _ _ (fun c hc => h c (by simpa using hc)), List.reverse_reverse]

theorem not_space_of_digit (c : Char) (h : isDigitChar c = true) : isPySpace c = false := by
  simp only [isDigitChar, Bool.and_eq_true, decide_eq_true_eq] at h
  have h1 : c ≠ ' ' := by intro he; subst he; revert h; decide
  have h2 : c ≠ '\t' := by intro he; subst he; revert h; decide
  have h3 : c ≠ '\n' := by intro he; subst he; revert h; decide
  have h4 : c ≠ '\r' := by intro he; subst he; revert h; decide
  have h5 : c ≠ '\x0b' := by intro he; subst he; revert h; decide
  have h6 : c ≠ '\x0c' := by intro he; subst he; revert h; decide
  simp [isPySpace, h1, h2, h3, h4, h5, h6]

theorem pyStrip_natRepr (n : Nat) : pyStrip (natRepr n) = natRepr n :=
  pyStrip_eq_self _ (fun c hc => not_space_of_digit c (natRepr_all_digit n c hc))

theorem head_natRepr_digit (n : Nat) (c : Char) (h : (natRepr n).head? = some c) :
    isDigitChar c = true := by
  cases hr : natRepr n with
  | nil =>
    rw [hr] at h
    simp at h
  | cons d r =>
    rw [hr] at h
    simp only [List.head?_cons, Option.some_inj] at h
    subst h
    exact natRepr_all_digit n d (by simp [hr])

theorem natRepr_head_ne_plus (n : Nat) : (natRepr n).head? ≠ some '+' := by
  intro h
  have := head_natRepr_digit n '+' h
  rw [show isDigitChar '+' = false by decide] at this
  exact Bool.false_ne_true this

theorem natRepr_head_ne_minus (n : Nat) : (natRepr n).head? ≠ some '-' := by
  intro h
  have := head_natRepr_digit n '-' h
  rw [show isDigitChar '-' = false by decide] at this
  exact Bool.false_ne_true this

theorem pyIntCore_natRepr (n : Nat) : pyIntCore (natRepr n) = some (n : Int) := by
  unfold pyIntCore
  rw [if_neg (natRepr_head_ne_plus n), if_neg (natRepr_head_ne_minus n),
    if_pos (pyDigits_natRepr n), digitsVal_natRepr]

theorem pyInt_pyStrInt (i : Int) : pyInt (pyStrInt i) = some i := by
  unfold pyStrInt
  split
  · next h =>
    unfold pyInt
    simp only [String.toList]
    have hstrip : pyStrip ('-' :: natRepr i.natAbs) = '-' :: natRepr i.natAbs := by
      apply pyStrip_eq_self
      intro c hc
      rcases List.mem_cons.mp hc with hc | hc
      · subst hc; decide
      · exact not_space_of_digit c (natRepr_all_digit _ c hc)
    rw [hstrip]
    unfold pyIntCore
    rw [if_neg (by simp), if_pos (by simp), List.tail_cons,
      if_pos (pyDigits_natRepr i.natAbs), digitsVal_natRepr]
    congr 1
    omega
  · next h =>
    unfold pyInt
    simp only [String.toList]
    rw [pyStrip_natRepr, pyIntCore_natRepr]
    congr 1
    omega

/-! ### Config loader — `load_db_config` of both scripts -/

/-- Python `s.split(sep)` for a single-character separator: at least one
piece, empty pieces preserved. -/
def splitOnChar (sep : Char) : List Char → List (List Char)
  | [] => [[]]
  | c :: rest =>
    let r := splitOnChar sep rest
    if c = sep then [] :: r
    else (c :: r.headD []) :: r.tail

/-- Python `item.split(sep, 1)`: the part before the first occurrence of
`sep` and the part after it, or `none` when `sep` does not occur
(the code's `if sep in item` guard). -/
def breakAtFirst (sep : Char) : List Char → Option (List Char × List Char)
  | [] => none
  | c :: rest =>
    if c = sep then some ([], rest)
    else (breakAtFirst sep rest).map (fun p => (c :: p.1, p.2))

/-- The `db_config` dictionary built by `load_db_config`: each key of the
Python dict becomes an optional field (`none` = key absent). -/
structure PyDbConfig where
  host : Option String
  database : Option String
  user : Option String
  password : Option String
  charset : Option String
deriving DecidableEq, Repr

/-- The empty `db_config = {}` dictionary. -/
def emptyConn : PyDbConfig := ⟨none, none, none, none, none⟩

/-- The recognized key of one `;`-separated item: the part before the first
`=`, stripped and lowercased (`none` when the item has no `=`). -/
def itemKey (item : List Char) : Option (List Char) :=
  (breakAtFirst '=' item).map (fun p => (pyStrip p.1).map Char.toLower)

/-- One iteration of the parsing loop of `load_db_config`: split the item at
the first `=`, strip and lowercase the key, strip the value, and assign the
matching `db_config` entry; items without `=` and unrecognized keys leave
the dictionary unchanged. -/
def applyItem (cfg : PyDbConfig) (item : List Char) : PyDbConfig :=
  match breakAtFirst '=' item with
  | none => cfg
  | some (k, v) =>
    if (pyStrip k).map Char.toLower = "server".toList then
      { cfg with host := some (String.mk (pyStrip v)) }
    else if (pyStrip k).map Char.toLower = "database".toList then
      { cfg with database := some (String.mk (pyStrip v)) }
    else if (pyStrip k).map Char.toLower = "user".toList then
      { cfg with user := some (String.mk (pyStrip v)) }
    else if (pyStrip k).map Char.toLower = "password".toList then
      { cfg with password := some (String.mk (pyStrip v)) }
    else cfg

/-- The parsing loop of `load_db_config` over the whole
`ConnectionStrings.DefaultConnection` value. -/
def parseConnStr (conn : String) : PyDbConfig :=
  (splitOnChar ';' conn.toList).foldl applyItem emptyConn

/-- Errors raised by `load_db_config`: the missing-file `FileNotFoundError`
and any other load failure (re-raised after the generic handler). -/
inductive LoadError
  | configNotFound
  | configParse
deriving DecidableEq, Repr

/-- Console text used by the callers when printing a load failure
(the exact Python exception text is abstracted to its kind). -/
def loadErrMsg : LoadError → String
  | .configNotFound => "config file not found"
  | .configParse => "config parse error"

instance : DecidableEq (Except LoadError PyDbConfig) := fun a b =>
  match a, b with
  | .ok x, .ok y =>
    if h : x = y then isTrue (by rw [h]) else isFalse (fun he => h (Except.ok.inj he))
  | .error x, .error y =>
    if h : x = y then isTrue (by rw [h]) else isFalse (fun he => h (Except.error.inj he))
  | .ok _, .error _ => isFalse (fun he => Except.noConfusion he)
  | .error _, .ok _ => isFalse (fun he => Except.noConfusion he)

/-- Result of `load_db_config`: the returned dictionary or the raised
exception, together with everything printed to standard output. -/
structure LoadResult where
  result : Except LoadError PyDbConfig
  output : List String
deriving DecidableEq, Repr

/-- `load_db_config` of both scripts.  `system` is `platform.system()`;
`connFile` is the OS-selected config file, abstracted to the value of its
`ConnectionStrings.DefaultConnection` field (`none` when the file is
absent).  Mirrors the source line by line: OS detection and prints, the
missing-file branch, the parsing loop, the hardcoded
`db_config['charset'] = 'utf8mb4'` assignment, and the summary prints whose
dictionary accesses raise `KeyError` when a recognized key was missing. -/
def load_db_config (system : String) (connFile : Option String) : LoadResult :=
  let cf := if system = "Windows" then "appsettings.Development.json" else "appsettings.Production.json"
  let env := if system = "Windows" then "Development" else "Production"
  let l0 := ["Detected OS: " ++ system ++ " -> Using " ++ env ++ " environment"]
  match connFile with
  | none => ⟨.error .configNotFound, l0 ++ ["Error: Config file not found: " ++ cf]⟩
  | some conn =>
    let d0 := parseConnStr conn
    let d : PyDbConfig := { d0 with charset := some "utf8mb4" }
    match d.host with
    | none => ⟨.error .configParse,
        l0 ++ ["Loaded config: " ++ cf, "Error loading config: 'host'"]⟩
    | some h =>
      match d.database with
      | none => ⟨.error .configParse,
          l0 ++ ["Loaded config: " ++ cf, "  Host: " ++ h, "Error loading config: 'database'"]⟩
      | some dbn =>
        match d.user with
        | none => ⟨.error .configParse,
            l0 ++ ["Loaded config: " ++ cf, "  Host: " ++ h, "  Database: " ++ dbn,
              "Error loading config: 'user'"]⟩
        | some u => ⟨.ok d,
            l0 ++ ["Loaded config: " ++ cf, "  Host: " ++ h, "  Database: " ++ dbn,
              "  User: " ++ u]⟩

/-- Whether a connection string contains an item whose key (stripped,
lowercased) is `kn` — i.e. the dictionary entry gets assigned. -/
def hasKeyCI (conn : String) (kn : List Char) : Bool :=
  (splitOnChar ';' conn.toList).any (fun it => itemKey it == some kn)

/-- The four key names recognized by the parsing loop. -/
def recognizedKeys : List (List Char) :=
  ["server".toList, "database".toList, "user".toList, "password".toList]

/-- Two split connection strings are identical except possibly in the value
carried by items whose key is `password` on both sides. -/
def pwOnlyDiff : List (List Char) → List (List Char) → Bool
  | [], [] => true
  | a :: as, b :: bs =>
    (a == b || (itemKey a == some "password".toList && itemKey b == some "password".toList))
      && pwOnlyDiff as bs
  | _, _ => false

/-- Erase the password entry of a loader result, keeping everything else. -/
def scrubPw : Except LoadError PyDbConfig → Except LoadError PyDbConfig
  | .ok c => .ok { c with password := none }
  | .error e => .error e

/-! ### The `hsk_words` table, CSV files, and the two scripts -/

/-- A row of the `hsk_words` table: the six columns of the schema. -/
structure HskRow where
  id : Int
  chinese : String
  pinyin : String
  pinyinWithTone : String
  japaneseMeaning : String
  hskLevel : Int
deriving DecidableEq, Repr

/-- Durable state of the `hsk_words` table: its rows and its
`AUTO_INCREMENT` counter. -/
structure DbState where
  rows : List HskRow
  autoInc : Int
deriving DecidableEq, Repr

/-- A CSV file, modelled structurally: the header row and the data records,
each a list of string fields (the `csv` module's quoting round-trips field
values verbatim). -/
structure CsvFile where
  header : List String
  records : List (List String)
deriving DecidableEq, Repr

/-- Observable events of a script run: a `print` to standard output or an
attempt to open the database connection (`pymysql.connect`). -/
inductive Ev
  | out (s : String)
  | connectDb
deriving DecidableEq, Repr

/-- The `ORDER BY Id` comparison of the export query. -/
def rowLe (a b : HskRow) : Prop := a.id ≤ b.id

instance : DecidableRel rowLe := fun a b => Int.decLe a.id b.id

instance : IsTotal HskRow rowLe := ⟨fun a b => Int.le_total a.id b.id⟩

instance : IsTrans HskRow rowLe := ⟨fun _ _ _ h1 h2 => le_trans h1 h2⟩

/-- The header written by the exporter and used by `csv.DictReader` on
import: `Id, Chinese, Pinyin, Pinyin_With_Tone, Japanese_Meaning,
Hsk_Level`. -/
def hskHeaders : List String :=
  ["Id", "Chinese", "Pinyin", "Pinyin_With_Tone", "Japanese_Meaning", "Hsk_Level"]

/-- One exported CSV record: `csv.writer` writes `str(value)` per field, so
the integer columns become their decimal representations and the text
columns are written verbatim. -/
def rowToCsv (r : HskRow) : List String :=
  [pyStrInt r.id, r.chinese, r.pinyin, r.pinyinWithTone, r.japaneseMeaning, pyStrInt r.hskLevel]

/-- `csv.DictReader` field lookup: the row dictionary maps each header name
to the corresponding record field (later duplicate header names overwrite
earlier ones, as in a Python dict); `none` when the key is absent. -/
def dictGet (hdr rec : List String) (k : String) : Option String :=
  (hdr.zip rec).foldl (fun a p => if p.1 = k then some p.2 else a) none

/-- Exceptions raised inside the import loop: a missing row key
(`KeyError`), a failed `int(...)` coercion (`ValueError`), and a failed
`INSERT` (`pymysql.IntegrityError`, e.g. a duplicate primary key). -/
inductive ImpError
  | keyErr
  | valueErr
  | integrityErr
deriving DecidableEq, Repr

/-- `row[k]` on a `DictReader` row: raises `KeyError` when absent. -/
def getField (hdr rec : List String) (k : String) : Except ImpError String :=
  match dictGet hdr rec k with
  | some v => .ok v
  | none => .error .keyErr

/-- `int(row[k])`: field lookup followed by Python integer coercion. -/
def getIntField (hdr rec : List String) (k : String) : Except ImpError Int :=
  match getField hdr rec k with
  | .error e => .error e
  | .ok s =>
    match pyInt s with
    | some v => .ok v
    | none => .error .valueErr

/-- The per-row work of the import loop, in source evaluation order:
`int(row['Id'])`, then the four text fields, then `int(row['Hsk_Level'])`;
the first exception aborts the row. -/
def parseCsvRow (hdr rec : List String) : Except ImpError HskRow :=
  match getIntField hdr rec "Id" with
  | .error e => .error e
  | .ok idv =>
    match getField hdr rec "Chinese" with
    | .error e => .error e
    | .ok ch =>
      match getField hdr rec "Pinyin" with
      | .error e => .error e
      | .ok p =>
        match getField hdr rec "Pinyin_With_Tone" with
        | .error e => .error e
        | .ok pt =>
          match getField hdr rec "Japanese_Meaning" with
          | .error e => .error e
          | .ok jm =>
            match getIntField hdr rec "Hsk_Level" with
            | .error e => .error e
            | .ok lv => .ok ⟨idv, ch, p, pt, jm, lv⟩

/-- One `INSERT INTO hsk_words ... VALUES (...)` with an explicit id on the
pending transaction state: fails on a duplicate primary key; on success
MySQL bumps the auto-increment counter past the explicit id. -/
def insertRow (pending : DbState) (r : HskRow) : Option DbState :=
  if pending.rows.any (fun x => x.id = r.id) then none
  else some ⟨pending.rows ++ [r], max pending.autoInc (r.id + 1)⟩

/-- The `for row in reader:` loop of `import_csv_to_db`: parse and insert
each record in order, counting inserts and emitting the progress message
every 100 rows; the first exception aborts the loop.  Returns the progress
prints, the pending transaction state reached when the loop stopped (needed
because auto-increment bumps survive a rollback), and either the insert
count or the exception. -/
def importRows (hdr : List String) :
    List (List String) → DbState → Nat → List String × DbState × Except ImpError Nat
  | [], pending, n => ([], pending, .ok n)
  | rec :: rest, pending, n =>
    match parseCsvRow hdr rec with
    | .error e => ([], pending, .error e)
    | .ok r =>
      match insertRow pending r with
      | none => ([], pending, .error .integrityErr)
      | some p' =>
        let n' := n + 1
        let progress := if n' % 100 = 0 then ["  Inserted " ++ pyStrNat n' ++ " records..."] else []
        let (outs, res) := importRows hdr rest p' n'
        (progress ++ outs, res)

/-- The verification query `SELECT Hsk_Level, COUNT(*) FROM hsk_words GROUP
BY Hsk_Level ORDER BY Hsk_Level`. -/
def levelCounts (rows : List HskRow) : List (Int × Nat) :=
  (List.insertionSort (fun a b : Int => a ≤ b) ((rows.map (fun r => r.hskLevel)).dedup)).map
    (fun v => (v, (rows.filter (fun r => r.hskLevel = v)).length))

/-- The per-level verification prints of step 4 of the importer. -/
def levelReport (rows : List HskRow) : List Ev :=
  Ev.out "\nRecords by HSK Level:" ::
    (levelCounts rows).map
      (fun p => Ev.out ("  HSK " ++ pyStrInt p.1 ++ ": " ++ pyStrNat p.2 ++ " words"))

/-- Result of one run of the exporter: the written file (`none` when no
file was created) and the observable trace. -/
structure ExportRun where
  file : Option CsvFile
  trace : List Ev
deriving DecidableEq, Repr

/-- `export_hsk_words_to_csv` of `createcsv.py`.  Loads the config, connects,
selects all rows ordered by `Id`, returns without writing when no rows come
back, and otherwise writes the header plus one record per row.  Exceptions
from config loading land in the script's `except` clauses, with the
connection never opened; the connection is closed in the `finally` block
only when it was opened. -/
def export_hsk_words_to_csv (system : String) (connFile : Option String)
    (db : DbState) (output_file : String) : ExportRun :=
  let lr := load_db_config system connFile
  let t0 := lr.output.map Ev.out
  match lr.result with
  | .error e => ⟨none, t0 ++ [Ev.out ("Error occurred: " ++ loadErrMsg e)]⟩
  | .ok cfg =>
    let t1 := t0 ++ [Ev.connectDb,
      Ev.out ("Connected to database: " ++ cfg.database.getD "")]
    let rows := List.insertionSort rowLe db.rows
    if rows.isEmpty then
      ⟨none, t1 ++ [Ev.out "No data found.", Ev.out "Database connection closed."]⟩
    else
      ⟨some ⟨hskHeaders, rows.map rowToCsv⟩,
        t1 ++ [Ev.out ("Exported " ++ pyStrNat rows.length ++ " records to " ++ output_file),
          Ev.out "Database connection closed."]⟩

/-- How one run of the importer ended: which `except` clause (if any)
handled the run. -/
inductive ImpOutcome
  | success (n : Nat)
  | fileNotFound
  | dbError
  | genericError
deriving DecidableEq, Repr

/-- Result of one run of the importer: the durable table state after the
run, the observable trace, and the outcome. -/
structure ImportRun where
  db : DbState
  trace : List Ev
  outcome : ImpOutcome
deriving DecidableEq, Repr

/-- `import_csv_to_db` of `import_csv.py`.  Loads the config, connects,
then executes `DELETE FROM hsk_words` on the open transaction followed by
`ALTER TABLE hsk_words AUTO_INCREMENT = 1`.  The `ALTER TABLE` is DDL:
MySQL implicitly commits the transaction in progress — making the delete
durable — and applies the counter reset outside any transaction, so the
durable state after step 2 is the empty table with counter 1 on every
subsequent path.  Only then is the CSV opened (a missing file raises
`FileNotFoundError`, caught without touching the now-durable delete);
otherwise every record is inserted, the transaction is committed once after
the loop, and the verification queries run.  Any exception in the loop
rolls back only the uncommitted inserts; the auto-increment bumps made by
the inserted prefix survive the rollback, as InnoDB never decreases the
counter.  A config-load `FileNotFoundError` propagates into the script's
own `except FileNotFoundError` clause (which misattributes it to the CSV
file); other config errors land in the generic handler; in both cases the
connection was never opened and the table is untouched. -/
def import_csv_to_db (system : String) (connFile : Option String)
    (csvName : String) (csvFile : Option CsvFile) (db : DbState) : ImportRun :=
  let lr := load_db_config system connFile
  let t0 := lr.output.map Ev.out
  match lr.result with
  | .error .configNotFound =>
    ⟨db, t0 ++ [Ev.out ("Error: CSV file '" ++ csvName ++ "' not found")], .fileNotFound⟩
  | .error .configParse =>
    ⟨db, t0 ++ [Ev.out ("Error occurred: " ++ loadErrMsg .configParse)], .genericError⟩
  | .ok cfg =>
    let t1 := t0 ++ [Ev.connectDb,
      Ev.out ("Connected to database: " ++ cfg.database.getD ""),
      Ev.out "\nStep 1: Deleting existing data...",
      Ev.out ("Deleted " ++ pyStrNat db.rows.length ++ " records"),
      Ev.out "\nStep 2: Resetting auto increment...",
      Ev.out ("\nStep 3: Importing data from " ++ csvName ++ "...")]
    match csvFile with
    | none =>
      ⟨⟨[], 1⟩, t1 ++ [Ev.out ("Error: CSV file '" ++ csvName ++ "' not found"),
        Ev.out "\nDatabase connection closed."], .fileNotFound⟩
    | some csv =>
      match importRows csv.header csv.records ⟨[], 1⟩ 0 with
      | (outs, fin, .error .integrityErr) =>
        ⟨⟨[], fin.autoInc⟩, t1 ++ outs.map Ev.out ++ [Ev.out "Database error: INSERT failed",
          Ev.out "Transaction rolled back",
          Ev.out "\nDatabase connection closed."], .dbError⟩
      | (outs, fin, .error _) =>
        ⟨⟨[], fin.autoInc⟩, t1 ++ outs.map Ev.out ++ [Ev.out "Error occurred: bad row",
          Ev.out "\nDatabase connection closed."], .genericError⟩
      | (outs, fin, .ok n) =>
        ⟨fin, t1 ++ outs.map Ev.out ++
          [Ev.out ("\nCompleted! Inserted " ++ pyStrNat n ++ " records successfully."),
           Ev.out "\nStep 4: Verifying data...",
           Ev.out ("Total records: " ++ pyStrNat fin.rows.length)] ++
          levelReport fin.rows ++ [Ev.out "\nDatabase connection closed."], .success n⟩

/-- Whether the `Id` or `Hsk_Level` field of a CSV record is present but
not a valid Python integer literal. -/
def badIntField (hdr rec : List String) : Bool :=
  (match dictGet hdr rec "Id" with
   | some s => (pyInt s).isNone
   | none => false) ||
  (match dictGet hdr rec "Hsk_Level" with
   | some s => (pyInt s).isNone
   | none => false)

/-! ### Lemmas about the connection-string parser -/

theorem splitOnChar_ne_nil (sep : Char) (l : List Char) : splitOnChar sep l ≠ [] := by
  cases l with
  | nil => simp [splitOnChar]
  | cons c r =>
    simp only [splitOnChar]
    split <;> simp

theorem splitOnChar_append (sep : Char) (l1 l2 : List Char) :
    splitOnChar sep (l1 ++ sep :: l2) = splitOnChar sep l1 ++ splitOnChar sep l2 := by
  induction l1 with
  | nil => simp [splitOnChar]
  | cons c r ih =>
    have hstep : splitOnChar sep (c :: (r ++ sep :: l2)) =
        if c = sep then [] :: splitOnChar sep (r ++ sep :: l2)
        else (c :: (splitOnChar sep (r ++ sep :: l2)).headD []) ::
          (splitOnChar sep (r ++ sep :: l2)).tail := rfl
    rw [List.cons_append, hstep, ih]
    obtain ⟨h, t, he⟩ := List.exists_cons_of_ne_nil (splitOnChar_ne_nil sep r)
    split
    · next hc =>
      have hstep2 : splitOnChar sep (c :: r) = [] :: splitOnChar sep r := by
        simp [splitOnChar, hc]
      rw [hstep2]
      simp
    · next hc =>
      have hstep2 : splitOnChar sep (c :: r) =
          (c :: (splitOnChar sep r).headD []) :: (splitOnChar sep r).tail := by
        simp [splitOnChar, hc]
      rw [hstep2, he]
      simp

theorem splitOnChar_no_sep (sep : Char) (l : List Char) (h : sep ∉ l) :
    splitOnChar sep l = [l] := by
  induction l with
  | nil => rfl
  | cons c r ih =>
    simp only [splitOnChar]
    rw [if_neg (fun he => h (by simp [he])), ih (fun he => h (by simp [he]))]
    rfl

theorem applyItem_unrecognized (cfg : PyDbConfig) (t : List Char)
    (h : ∀ kn ∈ recognizedKeys, itemKey t ≠ some kn) : applyItem cfg t = cfg := by
  unfold applyItem
  split
  · rfl
  · next k v heq =>
    have hk : itemKey t = some ((pyStrip k).map Char.toLower) := by
      simp [itemKey, heq]
    have hs : ¬ ((pyStrip k).map Char.toLower = "server".toList) := by
      intro he
      exact h ("server".toList) (by simp [recognizedKeys]) (by rw [hk, he])
    have hd : ¬ ((pyStrip k).map Char.toLower = "database".toList) := by
      intro he
      exact h ("database".toList) (by simp [recognizedKeys]) (by rw [hk, he])
    have hu : ¬ ((pyStrip k).map Char.toLower = "user".toList) := by
      intro he
      exact h ("user".toList) (by simp [recognizedKeys]) (by rw [hk, he])
    have hp : ¬ ((pyStrip k).map Char.toLower = "password".toList) := by
      intro he
      exact h ("password".toList) (by simp [recognizedKeys]) (by rw [hk, he])
    simp only [hs, hd, hu, hp, if_false]

theorem foldl_applyItem_isSome (sel : PyDbConfig → Option String)
    (hpres : ∀ cfg it, (sel cfg).isSome → (sel (applyItem cfg it)).isSome)
    (kn : List Char)
    (hset : ∀ cfg it, itemKey it = some kn → (sel (applyItem cfg it)).isSome) :
    ∀ (items : List (List Char)) (cfg : PyDbConfig),
      ((sel cfg).isSome ∨ ∃ it ∈ items, itemKey it = some kn) →
      (sel (items.foldl applyItem cfg)).isSome := by
  intro items
  induction items with
  | nil =>
    intro cfg h
    rcases h with h | ⟨it, hit, _⟩
    · exact h
    · simp at hit
  | cons a as ih =>
    intro cfg h
    rw [List.foldl_cons]
    apply ih
    rcases h with h | ⟨it, hit, hkk⟩
    · exact Or.inl (hpres cfg a h)
    · rcases List.mem_cons.mp hit with he | he
      · subst he
        exact Or.inl (hset cfg it hkk)
      · exact Or.inr ⟨it, he, hkk⟩

theorem applyItem_host_pres (cfg : PyDbConfig) (it : List Char)
    (h : cfg.host.isSome) : (applyItem cfg it).host.isSome := by
  unfold applyItem
  split
  · exact h
  · split_ifs <;> simp_all

theorem applyItem_database_pres (cfg : PyDbConfig) (it : List Char)
    (h : cfg.database.isSome) : (applyItem cfg it).database.isSome := by
  unfold applyItem
  split
  · exact h
  · split_ifs <;> simp_all

theorem applyItem_user_pres (cfg : PyDbConfig) (it : List Char)
    (h : cfg.user.isSome) : (applyItem cfg it).user.isSome := by
  unfold applyItem
  split
  · exact h
  · split_ifs <;> simp_all

theorem applyItem_password_pres (cfg : PyDbConfig) (it : List Char)
    (h : cfg.password.isSome) : (applyItem cfg it).password.isSome := by
  unfold applyItem
  split
  · exact h
  · split_ifs <;> simp_all

theorem itemKey_break (t k v : List Char) (heq : breakAtFirst '=' t = some (k, v)) :
    itemKey t = some ((pyStrip k).map Char.toLower) := by
  simp [itemKey, heq]

theorem applyItem_host_set (cfg : PyDbConfig) (it : List Char)
    (h : itemKey it = some ("server".toList)) : (applyItem cfg it).host.isSome := by
  unfold applyItem
  split
  · next heq => rw [itemKey, heq] at h; simp at h
  · next k v heq =>
    have hk := itemKey_break it k v heq
    rw [h] at hk
    have hk2 : (pyStrip k).map Char.toLower = "server".toList := by
      simpa using hk.symm
    simp [hk2]

theorem applyItem_database_set (cfg : PyDbConfig) (it : List Char)
    (h : itemKey it = some ("database".toList)) : (applyItem cfg it).database.isSome := by
  unfold applyItem
  split
  · next heq => rw [itemKey, heq] at h; simp at h
  · next k v heq =>
    have hk := itemKey_break it k v heq
    rw [h] at hk
    have hk2 : (pyStrip k).map Char.toLower = "database".toList := by
      simpa using hk.symm
    have hne : ¬ ((pyStrip k).map Char.toLower = "server".toList) := by
      rw [hk2]; decide
    simp [hk2, hne]

theorem applyItem_user_set (cfg : PyDbConfig) (it : List Char)
    (h : itemKey it = some ("user".toList)) : (applyItem cfg it).user.isSome := by
  unfold applyItem
  split
  · next heq => rw [itemKey, heq] at h; simp at h
  · next k v heq =>
    have hk := itemKey_break it k v heq
    rw [h] at hk
    have hk2 : (pyStrip k).map Char.toLower = "user".toList := by
      simpa using hk.symm
    have hne1 : ¬ ((pyStrip k).map Char.toLower = "server".toList) := by
      rw [hk2]; decide
    have hne2 : ¬ ((pyStrip k).map Char.toLower = "database".toList) := by
      rw [hk2]; decide
    simp [hk2, hne1, hne2]

theorem applyItem_password_set (cfg : PyDbConfig) (it : List Char)
    (h : itemKey it = some ("password".toList)) : (applyItem cfg it).password.isSome := by
  unfold applyItem
  split
  · next heq => rw [itemKey, heq] at h; simp at h
  · next k v heq =>
    have hk := itemKey_break it k v heq
    rw [h] at hk
    have hk2 : (pyStrip k).map Char.toLower = "password".toList := by
      simpa using hk.symm
    have hne1 : ¬ ((pyStrip k).map Char.toLower = "server".toList) := by
      rw [hk2]; decide
    have hne2 : ¬ ((pyStrip k).map Char.toLower = "database".toList) := by
      rw [hk2]; decide
    have hne3 : ¬ ((pyStrip k).map Char.toLower = "user".toList) := by
      rw [hk2]; decide
    simp [hk2, hne1, hne2, hne3]

theorem hasKeyCI_exists (conn : String) (kn : List Char) (h : hasKeyCI conn kn = true) :
    ∃ it ∈ splitOnChar ';' conn.toList, itemKey it = some kn := by
  unfold hasKeyCI at h
  rw [List.any_eq_true] at h
  obtain ⟨it, hit, hk⟩ := h
  exact ⟨it, hit, by simpa using hk⟩

theorem parseConnStr_host_isSome (conn : String) (h : hasKeyCI conn ("server".toList) = true) :
    (parseConnStr conn).host.isSome :=
  foldl_applyItem_isSome PyDbConfig.host applyItem_host_pres _ applyItem_host_set _ _
    (Or.inr (hasKeyCI_exists conn _ h))

theorem parseConnStr_database_isSome (conn : String)
    (h : hasKeyCI conn ("database".toList) = true) : (parseConnStr conn).database.isSome :=
  foldl_applyItem_isSome PyDbConfig.database applyItem_database_pres _ applyItem_database_set _ _
    (Or.inr (hasKeyCI_exists conn _ h))

theorem parseConnStr_user_isSome (conn : String) (h : hasKeyCI conn ("user".toList) = true) :
    (parseConnStr conn).user.isSome :=
  foldl_applyItem_isSome PyDbConfig.user applyItem_user_pres _ applyItem_user_set _ _
    (Or.inr (hasKeyCI_exists conn _ h))

theorem parseConnStr_password_isSome (conn : String)
    (h : hasKeyCI conn ("password".toList) = true) : (parseConnStr conn).password.isSome :=
  foldl_applyItem_isSome PyDbConfig.password applyItem_password_pres _ applyItem_password_set _ _
    (Or.inr (hasKeyCI_exists conn _ h))

theorem load_db_config_ok (system conn : String)
    (h1 : (parseConnStr conn).host.isSome) (h2 : (parseConnStr conn).database.isSome)
    (h3 : (parseConnStr conn).user.isSome) :
    (load_db_config system (some conn)).result =
      .ok { parseConnStr conn with charset := some "utf8mb4" } := by
  obtain ⟨a, ha⟩ := Option.isSome_iff_exists.mp h1
  obtain ⟨b, hb⟩ := Option.isSome_iff_exists.mp h2
  obtain ⟨c, hc⟩ := Option.isSome_iff_exists.mp h3
  unfold load_db_config
  simp only [ha, hb, hc]

/-! ### Claims C7–C10: the config loader -/

/-- C7 (counterexample): a semicolon-delimited connection string that lacks a
`password` key makes `load_db_config` return successfully with a
configuration object that does not contain all five fields — its `password`
entry is absent.  This refutes the claim that every semicolon-delimited
connection string yields an object with all five fields. -/
theorem C7_counterexample :
    (load_db_config "Linux" (some "Server=h;Database=d;User=u")).result =
      .ok ⟨some "h", some "d", some "u", none, some "utf8mb4"⟩ := by
  decide

/-- C7 (amended): for every semicolon-delimited connection string that
contains the keys `server`, `database`, `user` and `password`
(case-insensitively), `load_db_config` returns a configuration object
containing all five fields `host`, `database`, `user`, `password`,
`charset`; and appending one further semicolon-separated item with an
unrecognized key leaves the parsed configuration unchanged. -/
theorem C7_load_db_config_keys (system conn : String) (t : List Char)
    (hs : hasKeyCI conn ("server".toList) = true)
    (hd : hasKeyCI conn ("database".toList) = true)
    (hu : hasKeyCI conn ("user".toList) = true)
    (hp : hasKeyCI conn ("password".toList) = true)
    (ht1 : ';' ∉ t)
    (ht2 : ∀ kn ∈ recognizedKeys, itemKey t ≠ some kn) :
    (∃ c, (load_db_config system (some conn)).result = .ok c ∧
      c.host.isSome ∧ c.database.isSome ∧ c.user.isSome ∧ c.password.isSome ∧
      c.charset = some "utf8mb4") ∧
    parseConnStr (String.mk (conn.toList ++ ';' :: t)) = parseConnStr conn := by
  constructor
  · refine ⟨{ parseConnStr conn with charset := some "utf8mb4" },
      load_db_config_ok _ _ (parseConnStr_host_isSome _ hs)
        (parseConnStr_database_isSome _ hd) (parseConnStr_user_isSome _ hu),
      ?_, ?_, ?_, ?_, rfl⟩
    · simpa using parseConnStr_host_isSome _ hs
    · simpa using parseConnStr_database_isSome _ hd
    · simpa using parseConnStr_user_isSome _ hu
    · simpa using parseConnStr_password_isSome _ hp
  · unfold parseConnStr
    have hm : (String.mk (conn.toList ++ ';' :: t)).toList = conn.toList ++ ';' :: t := rfl
    rw [hm, splitOnChar_append, splitOnChar_no_sep _ _ ht1, List.foldl_append]
    simp only [List.foldl_cons, List.foldl_nil]
    rw [applyItem_unrecognized _ _ ht2]

/-- C7 (witness): the amended statement at a concrete mixed-case connection
string with an extra unrecognized key. -/
theorem C7_witness :
    (∃ c, (load_db_config "Windows"
        (some "SERVER = myhost; Database=mydb ;User=root;PASSWORD=secret;Extra=1")).result =
          .ok c ∧
      c.host.isSome ∧ c.database.isSome ∧ c.user.isSome ∧ c.password.isSome ∧
      c.charset = some "utf8mb4") ∧
    parseConnStr (String.mk
      (("SERVER = myhost; Database=mydb ;User=root;PASSWORD=secret;Extra=1").toList ++
        ';' :: ("charset=latin1").toList)) =
      parseConnStr "SERVER = myhost; Database=mydb ;User=root;PASSWORD=secret;Extra=1" :=
  C7_load_db_config_keys "Windows"
    "SERVER = myhost; Database=mydb ;User=root;PASSWORD=secret;Extra=1"
    (("charset=latin1").toList)
    (by decide) (by decide) (by decide) (by decide) (by decide) (by decide)

/-- C8 (counterexample): the `charset` field is not derived from the
connection string read from the config file: two connection strings whose
`Charset` items differ (`latin1` vs `gbk`) both yield `charset = utf8mb4`,
because the parser ignores the string's charset entry and the loader
hardcodes `'utf8mb4'`. -/
theorem C8_counterexample :
    (load_db_config "Linux"
      (some "Server=h;Database=d;User=u;Password=p;Charset=latin1")).result =
        .ok ⟨some "h", some "d", some "u", some "p", some "utf8mb4"⟩ ∧
    (load_db_config "Linux"
      (some "Server=h;Database=d;User=u;Password=p;Charset=gbk")).result =
        .ok ⟨some "h", some "d", some "u", some "p", some "utf8mb4"⟩ := by
  constructor
  · decide
  · decide

/-- C8 (amended): the `charset` field of every configuration object returned
by `load_db_config` is the constant `utf8mb4`, set unconditionally by the
loader itself and independent of the connection string; the other four
fields are the ones derived from the connection string. -/
theorem C8_charset_constant (system conn : String) (c : PyDbConfig)
    (h : (load_db_config system (some conn)).result = .ok c) :
    c.charset = some "utf8mb4" ∧ c.host = (parseConnStr conn).host ∧
    c.database = (parseConnStr conn).database ∧ c.user = (parseConnStr conn).user ∧
    c.password = (parseConnStr conn).password := by
  cases hh : (parseConnStr conn).host with
  | none =>
    have hr : (load_db_config system (some conn)).result = .error .configParse := by
      unfold load_db_config
      simp only [hh]
    rw [hr] at h
    exact absurd h (by simp)
  | some a =>
    cases hd : (parseConnStr conn).database with
    | none =>
      have hr : (load_db_config system (some conn)).result = .error .configParse := by
        unfold load_db_config
        simp only [hh, hd]
      rw [hr] at h
      exact absurd h (by simp)
    | some b =>
      cases hu : (parseConnStr conn).user with
      | none =>
        have hr : (load_db_config system (some conn)).result = .error .configParse := by
          unfold load_db_config
          simp only [hh, hd, hu]
        rw [hr] at h
        exact absurd h (by simp)
      | some u =>
        have hr := load_db_config_ok system conn (by simp [hh]) (by simp [hd]) (by simp [hu])
        rw [hr] at h
        have he := Except.ok.inj h
        subst he
        exact ⟨rfl, hh, hd, hu, rfl⟩

/-- C8 (witness): the amended statement at a concrete connection string. -/
theorem C8_witness :
    (⟨some "h", some "d", some "u", some "p", some "utf8mb4"⟩ : PyDbConfig).charset =
        some "utf8mb4" ∧
    (⟨some "h", some "d", some "u", some "p", some "utf8mb4"⟩ : PyDbConfig).host =
        (parseConnStr "Server=h;Database=d;User=u;Password=p").host ∧
    (⟨some "h", some "d", some "u", some "p", some "utf8mb4"⟩ : PyDbConfig).database =
        (parseConnStr "Server=h;Database=d;User=u;Password=p").database ∧
    (⟨some "h", some "d", some "u", some "p", some "utf8mb4"⟩ : PyDbConfig).user =
        (parseConnStr "Server=h;Database=d;User=u;Password=p").user ∧
    (⟨some "h", some "d", some "u", some "p", some "utf8mb4"⟩ : PyDbConfig).password =
        (parseConnStr "Server=h;Database=d;User=u;Password=p").password :=
  C8_charset_constant "Linux" "Server=h;Database=d;User=u;Password=p" _ (by decide)

theorem load_db_config_none (system : String) :
    (load_db_config system none).result = .error .configNotFound := rfl

/-- C9: when the OS-selected config file is absent, both scripts fail with
the ConfigNotFound error raised by `load_db_config`, no database connection
attempt appears in either script's trace, the exporter writes no file, and
the importer leaves the table untouched. -/
theorem C9_config_missing (system csvName output_file : String)
    (csvFile : Option CsvFile) (db db2 : DbState) :
    (load_db_config system none).result = .error .configNotFound ∧
    Ev.connectDb ∉ (export_hsk_words_to_csv system none db output_file).trace ∧
    (export_hsk_words_to_csv system none db output_file).file = none ∧
    Ev.connectDb ∉ (import_csv_to_db system none csvName csvFile db2).trace ∧
    (import_csv_to_db system none csvName csvFile db2).db = db2 := by
  refine ⟨rfl, ?_, ?_, ?_, ?_⟩
  · simp only [export_hsk_words_to_csv, load_db_config_none]
    simp
  · simp only [export_hsk_words_to_csv, load_db_config_none]
  · simp only [import_csv_to_db, load_db_config_none]
    simp
  · simp only [import_csv_to_db, load_db_config_none]

/-- One step of the parsing loop on two items that are either identical or
both carry the `password` key preserves agreement of the non-password
dictionary entries. -/
theorem applyItem_pw (c : PyDbConfig) (a : List Char)
    (h : itemKey a = some ("password".toList)) :
    ∃ w, applyItem c a = { c with password := some w } := by
  unfold applyItem
  split
  · next heq => rw [itemKey, heq] at h; simp at h
  · next k v heq =>
    have hk := itemKey_break a k v heq
    rw [h] at hk
    have hk2 : (pyStrip k).map Char.toLower = "password".toList := by
      simpa using hk.symm
    have hne1 : ¬ ((pyStrip k).map Char.toLower = "server".toList) := by
      rw [hk2]; decide
    have hne2 : ¬ ((pyStrip k).map Char.toLower = "database".toList) := by
      rw [hk2]; decide
    have hne3 : ¬ ((pyStrip k).map Char.toLower = "user".toList) := by
      rw [hk2]; decide
    exact ⟨String.mk (pyStrip v), by simp [hk2, hne1, hne2, hne3]⟩

theorem applyItem_pwOnly_congr (c1 c2 : PyDbConfig) (a b : List Char)
    (hc : c1.host = c2.host ∧ c1.database = c2.database ∧ c1.user = c2.user ∧
      c1.charset = c2.charset)
    (hab : a = b ∨ (itemKey a = some ("password".toList) ∧
      itemKey b = some ("password".toList))) :
    (applyItem c1 a).host = (applyItem c2 b).host ∧
    (applyItem c1 a).database = (applyItem c2 b).database ∧
    (applyItem c1 a).user = (applyItem c2 b).user ∧
    (applyItem c1 a).charset = (applyItem c2 b).charset := by
  obtain ⟨h1, h2, h3, h4⟩ := hc
  rcases hab with rfl | ⟨ha, hb⟩
  · unfold applyItem
    split
    · exact ⟨h1, h2, h3, h4⟩
    · split_ifs <;> simp_all
  · obtain ⟨w1, he1⟩ := applyItem_pw c1 a ha
    obtain ⟨w2, he2⟩ := applyItem_pw c2 b hb
    rw [he1, he2]
    exact ⟨h1, h2, h3, h4⟩

theorem foldl_pwOnly (l1 : List (List Char)) :
    ∀ (l2 : List (List Char)), pwOnlyDiff l1 l2 = true →
    ∀ (c1 c2 : PyDbConfig),
      (c1.host = c2.host ∧ c1.database = c2.database ∧ c1.user = c2.user ∧
        c1.charset = c2.charset) →
      ((l1.foldl applyItem c1).host = (l2.foldl applyItem c2).host ∧
       (l1.foldl applyItem c1).database = (l2.foldl applyItem c2).database ∧
       (l1.foldl applyItem c1).user = (l2.foldl applyItem c2).user ∧
       (l1.foldl applyItem c1).charset = (l2.foldl applyItem c2).charset) := by
  induction l1 with
  | nil =>
    intro l2 h
    cases l2 with
    | nil => intro c1 c2 hc; exact hc
    | cons b bs => simp [pwOnlyDiff] at h
  | cons a as ih =>
    intro l2 h
    cases l2 with
    | nil => simp [pwOnlyDiff] at h
    | cons b bs =>
      simp only [pwOnlyDiff, Bool.and_eq_true, Bool.or_eq_true, beq_iff_eq] at h
      intro c1 c2 hc
      simp only [List.foldl_cons]
      exact ih bs h.2 _ _ (applyItem_pwOnly_congr c1 c2 a b hc
        (by rcases h.1 with h1 | ⟨h1, h2⟩
            · exact Or.inl h1
            · exact Or.inr ⟨by simpa using h1, by simpa using h2⟩))

/-- C10: runs of `load_db_config` on config files whose connection strings
differ only in the value carried by their `password` items print the same
text to standard output and agree on every returned field except the
password itself: the password value never influences the loader's printed
output. -/
theorem C10_password_noninterference (system f1 f2 : String)
    (h : pwOnlyDiff (splitOnChar ';' f1.toList) (splitOnChar ';' f2.toList) = true) :
    (load_db_config system (some f1)).output = (load_db_config system (some f2)).output ∧
    scrubPw (load_db_config system (some f1)).result =
      scrubPw (load_db_config system (some f2)).result := by
  have hagree := foldl_pwOnly _ _ h emptyConn emptyConn ⟨rfl, rfl, rfl, rfl⟩
  obtain ⟨h1, h2, h3, h4⟩ := hagree
  have hp1 : (parseConnStr f1).host = (parseConnStr f2).host := h1
  have hp2 : (parseConnStr f1).database = (parseConnStr f2).database := h2
  have hp3 : (parseConnStr f1).user = (parseConnStr f2).user := h3
  cases hh : (parseConnStr f1).host with
  | none =>
    have hh2 : (parseConnStr f2).host = none := by rw [← hp1, hh]
    unfold load_db_config
    simp [hh, hh2, scrubPw]
  | some a =>
    have hh2 : (parseConnStr f2).host = some a := by rw [← hp1, hh]
    cases hd : (parseConnStr f1).database with
    | none =>
      have hd2 : (parseConnStr f2).database = none := by rw [← hp2, hd]
      unfold load_db_config
      simp [hh, hh2, hd, hd2, scrubPw]
    | some b =>
      have hd2 : (parseConnStr f2).database = some b := by rw [← hp2, hd]
      cases hu : (parseConnStr f1).user with
      | none =>
        have hu2 : (parseConnStr f2).user = none := by rw [← hp3, hu]
        unfold load_db_config
        simp [hh, hh2, hd, hd2, hu, hu2, scrubPw]
      | some u =>
        have hu2 : (parseConnStr f2).user = some u := by rw [← hp3, hu]
        unfold load_db_config
        simp [hh, hh2, hd, hd2, hu, hu2, scrubPw]

/-- C10 (witness): two concrete config files differing only in the password
value produce identical printed output and identical non-password fields. -/
theorem C10_witness :
    (load_db_config "Linux" (some "Server=h;Database=d;User=u;Password=alpha")).output =
      (load_db_config "Linux" (some "Server=h;Database=d;User=u;Password=beta")).output ∧
    scrubPw (load_db_config "Linux"
        (some "Server=h;Database=d;User=u;Password=alpha")).result =
      scrubPw (load_db_config "Linux"
        (some "Server=h;Database=d;User=u;Password=beta")).result :=
  C10_password_noninterference "Linux" "Server=h;Database=d;User=u;Password=alpha"
    "Server=h;Database=d;User=u;Password=beta" (by decide)

/-! ### Lemmas about the import loop -/

theorem parseCsvRow_std (r : HskRow) : parseCsvRow hskHeaders (rowToCsv r) = .ok r := by
  have h1 : dictGet hskHeaders (rowToCsv r) "Id" = some (pyStrInt r.id) := rfl
  have h2 : dictGet hskHeaders (rowToCsv r) "Chinese" = some r.chinese := rfl
  have h3 : dictGet hskHeaders (rowToCsv r) "Pinyin" = some r.pinyin := rfl
  have h4 : dictGet hskHeaders (rowToCsv r) "Pinyin_With_Tone" = some r.pinyinWithTone := rfl
  have h5 : dictGet hskHeaders (rowToCsv r) "Japanese_Meaning" = some r.japaneseMeaning := rfl
  have h6 : dictGet hskHeaders (rowToCsv r) "Hsk_Level" = some (pyStrInt r.hskLevel) := rfl
  simp [parseCsvRow, getIntField, getField, h1, h2, h3, h4, h5, h6, pyInt_pyStrInt]

theorem importRows_ok (l : List HskRow) :
    ∀ (pending : DbState) (n : Nat),
      ((pending.rows ++ l).map (fun r => r.id)).Nodup →
      ∃ a outs, importRows hskHeaders (l.map rowToCsv) pending n =
        (outs, ⟨pending.rows ++ l, a⟩, .ok (n + l.length)) := by
  induction l with
  | nil =>
    intro pending n h
    exact ⟨pending.autoInc, [], by simp [importRows]⟩
  | cons r rest ih =>
    intro pending n h
    have hnotin : r.id ∉ pending.rows.map (fun x => x.id) := by
      intro hmem
      rw [List.map_append] at h
      exact (List.nodup_append.mp h).2.2 hmem (by simp)
    have hany : (pending.rows.any fun x => x.id = r.id) = false := by
      rw [List.any_eq_false]
      intro x hx
      simp only [decide_eq_true_eq]
      intro he
      exact hnotin (he ▸ List.mem_map_of_mem _ hx)
    have h' : (((pending.rows ++ [r]) ++ rest).map (fun x => x.id)).Nodup := by
      rw [List.append_assoc]
      simpa using h
    obtain ⟨a, outs, he⟩ :=
      ih ⟨pending.rows ++ [r], max pending.autoInc (r.id + 1)⟩ (n + 1) h'
    refine ⟨a, (if (n + 1) % 100 = 0
      then ["  Inserted " ++ pyStrNat (n + 1) ++ " records..."] else []) ++ outs, ?_⟩
    have harith : n + 1 + rest.length = n + (rest.length + 1) := by omega
    simp only [List.map_cons, importRows, parseCsvRow_std, insertRow, hany, Bool.false_eq_true,
      if_false, he, harith, List.append_assoc, List.singleton_append, List.length_cons]

theorem parseCsvRow_err_of_badInt (hdr rec : List String)
    (h : badIntField hdr rec = true) : ∃ e, parseCsvRow hdr rec = .error e := by
  unfold badIntField at h
  rw [Bool.or_eq_true] at h
  rcases h with h | h
  · cases h1 : dictGet hdr rec "Id" with
    | none => rw [h1] at h; simp at h
    | some s =>
      rw [h1] at h
      have h2 : pyInt s = none := by simpa using h
      refine ⟨.valueErr, ?_⟩
      simp [parseCsvRow, getIntField, getField, h1, h2]
  · cases h1 : dictGet hdr rec "Hsk_Level" with
    | none => rw [h1] at h; simp at h
    | some s =>
      rw [h1] at h
      have h2 : pyInt s = none := by simpa using h
      have hF : getIntField hdr rec "Hsk_Level" = .error .valueErr := by
        simp [getIntField, getField, h1, h2]
      cases hA : getIntField hdr rec "Id" with
      | error e => exact ⟨e, by simp [parseCsvRow, hA]⟩
      | ok v1 =>
        cases hB : getField hdr rec "Chinese" with
        | error e => exact ⟨e, by simp [parseCsvRow, hA, hB]⟩
        | ok v2 =>
          cases hC : getField hdr rec "Pinyin" with
          | error e => exact ⟨e, by simp [parseCsvRow, hA, hB, hC]⟩
          | ok v3 =>
            cases hD : getField hdr rec "Pinyin_With_Tone" with
            | error e => exact ⟨e, by simp [parseCsvRow, hA, hB, hC, hD]⟩
            | ok v4 =>
              cases hE : getField hdr rec "Japanese_Meaning" with
              | error e => exact ⟨e, by simp [parseCsvRow, hA, hB, hC, hD, hE]⟩
              | ok v5 =>
                exact ⟨.valueErr, by simp [parseCsvRow, hA, hB, hC, hD, hE, hF]⟩

theorem importRows_err (hdr : List String) (l : List (List String)) :
    ∀ (pending : DbState) (n : Nat),
      (∃ rec ∈ l, ∃ e, parseCsvRow hdr rec = .error e) →
      ∃ e, (importRows hdr l pending n).2.2 = .error e := by
  induction l with
  | nil =>
    intro pending n h
    obtain ⟨rec, hrec, _⟩ := h
    simp at hrec
  | cons rec0 rest ih =>
    intro pending n h
    cases hp : parseCsvRow hdr rec0 with
    | error e => exact ⟨e, by simp [importRows, hp]⟩
    | ok r =>
      obtain ⟨rec, hrec, e, he⟩ := h
      have hrest : rec ∈ rest := by
        rcases List.mem_cons.mp hrec with hq | hq
        · subst hq; rw [hp] at he; exact absurd he (by simp)
        · exact hq
      cases hins : insertRow pending r with
      | none => exact ⟨.integrityErr, by simp [importRows, hp, hins]⟩
      | some p' =>
        obtain ⟨e2, he2⟩ := ih p' (n + 1) ⟨rec, hrest, e, he⟩
        refine ⟨e2, ?_⟩
        simp only [importRows, hp, hins]
        cases hq : importRows hdr rest p' (n + 1) with
        | mk outs res =>
          rw [hq] at he2
          simpa using he2

/-! ### Claims C1–C6: the importer and the exporter -/

/-- C1 (code bug): the all-or-nothing claim is the spec's clear intent, but
the code violates it.  On a CSV whose first row has the non-numeric `Id`
value `abc`, the importer durably empties a nonempty table instead of
leaving it exactly as it was: the `ALTER TABLE ... AUTO_INCREMENT = 1`
implicitly commits the preceding `DELETE`, so the later rollback discards
only the uncommitted inserts and the final state is the empty table with
counter 1, handled by the generic exception clause. -/
theorem C1_code_bug :
    (import_csv_to_db "Linux" (some "Server=h;Database=d;User=u;Password=p") "f.csv"
      (some ⟨hskHeaders, [["abc", "x", "y", "z", "w", "1"]]⟩)
      ⟨[⟨1, "a", "b", "c", "d", 1⟩], 5⟩).db = ⟨[], 1⟩ ∧
    (⟨[], 1⟩ : DbState) ≠ ⟨[⟨1, "a", "b", "c", "d", 1⟩], 5⟩ ∧
    (import_csv_to_db "Linux" (some "Server=h;Database=d;User=u;Password=p") "f.csv"
      (some ⟨hskHeaders, [["abc", "x", "y", "z", "w", "1"]]⟩)
      ⟨[⟨1, "a", "b", "c", "d", 1⟩], 5⟩).outcome = .genericError := by
  refine ⟨by decide, by decide, by decide⟩

/-- C2 (code bug): the claim that a missing CSV leaves the database state
unchanged is the spec's clear intent, but the code violates it.  The
`DELETE` and the `ALTER TABLE` counter reset run before the CSV is opened;
the `ALTER TABLE` implicitly commits the delete and resets the counter
durably, so when `open()` raises `FileNotFoundError` the run has already
emptied a nonempty table and set the counter to 1. -/
theorem C2_code_bug :
    (import_csv_to_db "Linux" (some "Server=h;Database=d;User=u;Password=p") "missing.csv"
      none ⟨[⟨1, "a", "b", "c", "d", 1⟩], 7⟩).db = ⟨[], 1⟩ ∧
    (⟨[], 1⟩ : DbState) ≠ ⟨[⟨1, "a", "b", "c", "d", 1⟩], 7⟩ ∧
    (import_csv_to_db "Linux" (some "Server=h;Database=d;User=u;Password=p") "missing.csv"
      none ⟨[⟨1, "a", "b", "c", "d", 1⟩], 7⟩).outcome = .fileNotFound := by
  refine ⟨by decide, by decide, by decide⟩

/-- C4: running the importer twice in succession with the same CSV input
yields the same final durable table state as running it once, for every
config file, CSV input, and initial state. -/
theorem C4_import_idempotent (system : String) (connFile : Option String)
    (csvName : String) (csvFile : Option CsvFile) (db : DbState) :
    (import_csv_to_db system connFile csvName csvFile
      (import_csv_to_db system connFile csvName csvFile db).db).db =
    (import_csv_to_db system connFile csvName csvFile db).db := by
  simp only [import_csv_to_db]
  cases hr : (load_db_config system connFile).result with
  | error e => cases e <;> simp
  | ok cfg =>
    cases csvFile with
    | none => simp
    | some csv =>
      dsimp only
      obtain ⟨outs, fin, res, hq⟩ :
          ∃ outs fin res, importRows csv.header csv.records ⟨[], 1⟩ 0 = (outs, fin, res) :=
        ⟨_, _, _, rfl⟩
      rw [hq]
      cases res with
      | error e => cases e <;> simp
      | ok n => simp

/-- C5: exporting an empty table reports the no-data condition and creates
no output file. -/
theorem C5_empty_export (system : String) (connFile : Option String)
    (output_file : String) (db : DbState) (cfg : PyDbConfig)
    (hok : (load_db_config system connFile).result = .ok cfg)
    (hempty : db.rows = []) :
    (export_hsk_words_to_csv system connFile db output_file).file = none ∧
    Ev.out "No data found." ∈ (export_hsk_words_to_csv system connFile db output_file).trace := by
  have hrows : List.insertionSort rowLe db.rows = [] := by rw [hempty]; rfl
  constructor
  · simp only [export_hsk_words_to_csv, hok, hrows]
    simp
  · simp only [export_hsk_words_to_csv, hok, hrows]
    simp

/-- C5 (witness): exporting a concrete empty table writes no file and prints
the no-data message. -/
theorem C5_witness :
    (export_hsk_words_to_csv "Linux" (some "Server=h;Database=d;User=u;Password=p")
      ⟨[], 3⟩ "out.csv").file = none ∧
    Ev.out "No data found." ∈ (export_hsk_words_to_csv "Linux"
      (some "Server=h;Database=d;User=u;Password=p") ⟨[], 3⟩ "out.csv").trace :=
  C5_empty_export "Linux" (some "Server=h;Database=d;User=u;Password=p") "out.csv"
    ⟨[], 3⟩ ⟨some "h", some "d", some "u", some "p", some "utf8mb4"⟩ (by decide) rfl

theorem export_file_of_ok (system : String) (connFile : Option String)
    (output_file : String) (db : DbState) (cfg : PyDbConfig)
    (hok : (load_db_config system connFile).result = .ok cfg)
    (hne : db.rows ≠ []) :
    (export_hsk_words_to_csv system connFile db output_file).file =
      some ⟨hskHeaders, (List.insertionSort rowLe db.rows).map rowToCsv⟩ := by
  have hperm := List.perm_insertionSort rowLe db.rows
  have hnil : List.insertionSort rowLe db.rows ≠ [] := by
    intro he
    rw [he] at hperm
    exact hne (List.Perm.eq_nil hperm.symm)
  have hempty_false : (List.insertionSort rowLe db.rows).isEmpty = false := by
    simpa [List.isEmpty_iff] using hnil
  simp only [export_hsk_words_to_csv, hok, hempty_false]
  simp

/-- C6: for every nonempty table state (with the primary-key invariant that
ids are distinct), the written CSV file consists of the header row `Id,
Chinese, Pinyin, Pinyin_With_Tone, Japanese_Meaning, Hsk_Level` followed by
one record per row with field order matching the header, and the data
records follow a strictly ascending `Id` order. -/
theorem C6_export_format (system : String) (connFile : Option String)
    (output_file : String) (db : DbState) (cfg : PyDbConfig)
    (hok : (load_db_config system connFile).result = .ok cfg)
    (hne : db.rows ≠ [])
    (hnd : (db.rows.map (fun r => r.id)).Nodup) :
    ∃ f, (export_hsk_words_to_csv system connFile db output_file).file = some f ∧
      f.header = hskHeaders ∧
      ∃ l, List.Perm l db.rows ∧ l.Pairwise (fun a b => a.id < b.id) ∧
        f.records = l.map rowToCsv := by
  refine ⟨⟨hskHeaders, (List.insertionSort rowLe db.rows).map rowToCsv⟩,
    export_file_of_ok system connFile output_file db cfg hok hne, rfl,
    List.insertionSort rowLe db.rows, List.perm_insertionSort rowLe db.rows, ?_, rfl⟩
  have hsorted : (List.insertionSort rowLe db.rows).Pairwise rowLe :=
    List.sorted_insertionSort rowLe db.rows
  have hndl : ((List.insertionSort rowLe db.rows).map (fun r => r.id)).Nodup :=
    (((List.perm_insertionSort rowLe db.rows).map (fun r => r.id)).nodup_iff).mpr hnd
  have hne2 : (List.insertionSort rowLe db.rows).Pairwise (fun a b => a.id ≠ b.id) :=
    List.pairwise_map.mp hndl
  exact (hsorted.and hne2).imp (fun h => lt_of_le_of_ne h.1 h.2)

/-- C6 (witness): exporting a concrete two-row table (stored out of id
order) yields the standard header and the records in strictly ascending id
order. -/
theorem C6_witness :
    ∃ f, (export_hsk_words_to_csv "Linux" (some "Server=h;Database=d;User=u;Password=p")
        ⟨[⟨2, "b1", "b2", "b3", "b4", 2⟩, ⟨1, "a1", "a2", "a3", "a4", 1⟩], 9⟩
        "out.csv").file = some f ∧
      f.header = hskHeaders ∧
      ∃ l, List.Perm l [⟨2, "b1", "b2", "b3", "b4", 2⟩, ⟨1, "a1", "a2", "a3", "a4", 1⟩] ∧
        l.Pairwise (fun a b => a.id < b.id) ∧ f.records = l.map rowToCsv :=
  C6_export_format "Linux" (some "Server=h;Database=d;User=u;Password=p") "out.csv"
    ⟨[⟨2, "b1", "b2", "b3", "b4", 2⟩, ⟨1, "a1", "a2", "a3", "a4", 1⟩], 9⟩
    ⟨some "h", some "d", some "u", some "p", some "utf8mb4"⟩
    (by decide) (by decide) (by decide)

/-- C3: for every nonempty table state with distinct ids, exporting the
table and importing the produced CSV (into any prior state) reproduces an
identical row set: the final rows are a permutation of the exported rows —
the same ids and field values — with the same row count, and the import
succeeds. -/
theorem C3_round_trip (system : String) (connFile : Option String)
    (output_file csvName : String) (db db2 : DbState) (cfg : PyDbConfig)
    (hok : (load_db_config system connFile).result = .ok cfg)
    (hne : db.rows ≠ [])
    (hnd : (db.rows.map (fun r => r.id)).Nodup) :
    ∃ f, (export_hsk_words_to_csv system connFile db output_file).file = some f ∧
      List.Perm (import_csv_to_db system connFile csvName (some f) db2).db.rows db.rows ∧
      (import_csv_to_db system connFile csvName (some f) db2).db.rows.length =
        db.rows.length ∧
      (import_csv_to_db system connFile csvName (some f) db2).outcome =
        .success db.rows.length := by
  refine ⟨⟨hskHeaders, (List.insertionSort rowLe db.rows).map rowToCsv⟩,
    export_file_of_ok system connFile output_file db cfg hok hne, ?_⟩
  have hperm := List.perm_insertionSort rowLe db.rows
  have hndl : ((List.insertionSort rowLe db.rows).map (fun r => r.id)).Nodup :=
    ((hperm.map (fun r => r.id)).nodup_iff).mpr hnd
  have hnd0 : ((([] : List HskRow) ++ List.insertionSort rowLe db.rows).map
      (fun r => r.id)).Nodup := by simpa using hndl
  obtain ⟨a, outs, he⟩ := importRows_ok (List.insertionSort rowLe db.rows) ⟨[], 1⟩ 0 hnd0
  have hrun : import_csv_to_db system connFile csvName
      (some ⟨hskHeaders, (List.insertionSort rowLe db.rows).map rowToCsv⟩) db2 =
      ⟨⟨List.insertionSort rowLe db.rows, a⟩, (load_db_config system connFile).output.map Ev.out ++
        [Ev.connectDb, Ev.out ("Connected to database: " ++ cfg.database.getD ""),
          Ev.out "\nStep 1: Deleting existing data...",
          Ev.out ("Deleted " ++ pyStrNat db2.rows.length ++ " records"),
          Ev.out "\nStep 2: Resetting auto increment...",
          Ev.out ("\nStep 3: Importing data from " ++ csvName ++ "...")] ++ outs.map Ev.out ++
        [Ev.out ("\nCompleted! Inserted " ++
            pyStrNat (List.insertionSort rowLe db.rows).length ++ " records successfully."),
         Ev.out "\nStep 4: Verifying data...",
         Ev.out ("Total records: " ++ pyStrNat (List.insertionSort rowLe db.rows).length)] ++
        levelReport (List.insertionSort rowLe db.rows) ++
        [Ev.out "\nDatabase connection closed."],
        .success (List.insertionSort rowLe db.rows).length⟩ := by
    simp only [import_csv_to_db, hok, he]
    simp
  rw [hrun]
  exact ⟨hperm, hperm.length_eq, by rw [hperm.length_eq]⟩

/-- C3 (witness): exporting a concrete two-row table and importing the
produced file into a different concrete state reproduces the same two rows
and count. -/
theorem C3_witness :
    ∃ f, (export_hsk_words_to_csv "Linux" (some "Server=h;Database=d;User=u;Password=p")
        ⟨[⟨2, "b1", "b2", "b3", "b4", 2⟩, ⟨1, "a1", "a2", "a3", "a4", 1⟩], 9⟩
        "out.csv").file = some f ∧
      List.Perm (import_csv_to_db "Linux" (some "Server=h;Database=d;User=u;Password=p")
          "out.csv" (some f) ⟨[⟨7, "x", "y", "z", "w", 3⟩], 4⟩).db.rows
        [⟨2, "b1", "b2", "b3", "b4", 2⟩, ⟨1, "a1", "a2", "a3", "a4", 1⟩] ∧
      (import_csv_to_db "Linux" (some "Server=h;Database=d;User=u;Password=p")
          "out.csv" (some f) ⟨[⟨7, "x", "y", "z", "w", 3⟩], 4⟩).db.rows.length = 2 ∧
      (import_csv_to_db "Linux" (some "Server=h;Database=d;User=u;Password=p")
          "out.csv" (some f) ⟨[⟨7, "x", "y", "z", "w", 3⟩], 4⟩).outcome = .success 2 :=
  C3_round_trip "Linux" (some "Server=h;Database=d;User=u;Password=p") "out.csv" "out.csv"
    ⟨[⟨2, "b1", "b2", "b3", "b4", 2⟩, ⟨1, "a1", "a2", "a3", "a4", 1⟩], 9⟩
    ⟨[⟨7, "x", "y", "z", "w", 3⟩], 4⟩
    ⟨some "h", some "d", some "u", some "p", some "utf8mb4"⟩
    (by decide) (by decide) (by decide)
